import Mathlib

/-!
Shallow embedding of the locomotion state machine, lateral motion controller
and scroll/segment recycler of the endless-runner scene in
`src/src/components/BabylonCanvas.tsx` (the reference variant consolidated by
the specification).  Numeric quantities (frame numbers, world positions,
speeds, elapsed seconds) are modelled as rationals; the nullable engine
handles (animation group, skeleton, animatable, completion observer) are
modelled as booleans and `Option` fields of an explicit `GameState` record.
The completion callbacks that drive the Jump/Fall/Getup and Run_Idle chains
are reified as the inductive `Cont`, stored where the code stores the
corresponding observer handle and fired by `fireCompletion`.
-/

set_option maxHeartbeats 1000000

namespace InfinBboy

/-- The nine logical player states of the locomotion state machine. -/
inductive PlayerState where
  | Idle
  | Run
  | Strafe_L
  | Strafe_R
  | Slide
  | Jump
  | Fall
  | Getup
  | Run_Idle
deriving DecidableEq, Fintype

/-- Static animation-range table entry: frame bounds, loop flag and the
world-scroll speed active while the state plays.  The `end` field of the
source is renamed `endFrame` because `end` is reserved in Lean. -/
structure AnimationRangeConfig where
  start : ℚ
  endFrame : ℚ
  loop : Bool
  scroll : ℚ
deriving DecidableEq

/-- Base world-scroll speed in units per second, line 51 of the source. -/
def baseScrollSpeed : ℚ := 102

/-- The static animation range table of `BabylonCanvas.tsx` lines 73 to 94,
with the loop-range entries produced by `buildLoopRange` flattened in. -/
def animationRanges : PlayerState → AnimationRangeConfig
  | .Idle => ⟨0, 175, true, 0⟩
  | .Run => ⟨176, 217, true, baseScrollSpeed⟩
  | .Strafe_L => ⟨364, 403, true, baseScrollSpeed⟩
  | .Strafe_R => ⟨404, 443, true, baseScrollSpeed⟩
  | .Slide => ⟨218, 309, false, baseScrollSpeed⟩
  | .Jump => ⟨310, 363, false, baseScrollSpeed⟩
  | .Fall => ⟨498, 649, false, baseScrollSpeed⟩
  | .Getup => ⟨650, 1106, false, baseScrollSpeed⟩
  | .Run_Idle => ⟨444, 497, false, 0⟩

/-- Membership in the blocking set `{Slide, Jump, Fall, Getup}` of line 105. -/
def isBlocking : PlayerState → Bool
  | .Slide => true
  | .Jump => true
  | .Fall => true
  | .Getup => true
  | _ => false

/-! ### Scroll/segment recycler -/

/-- The running-minimum loop of `advanceSegments` (source lines 582 to 587):
fold over the remaining segment z values keeping the smallest seen so far. -/
def ringMin : List ℚ → ℚ → ℚ
  | [], acc => acc
  | z :: rest, acc => ringMin rest (if z < acc then z else acc)

/-- Minimum z over a ring, matching the JS loop that starts from Infinity:
the first element always replaces Infinity, after which `ringMin` runs. -/
def ringMinAll : List ℚ → ℚ
  | [] => 0
  | z :: rest => ringMin rest z

/-- One frame of the segment recycler, `advanceSegments` at source lines 575
to 593: skip empty rings, add `movement` to every segment z, compute the
minimum z over the advanced ring, then teleport every segment whose z
exceeds `spacing` to `minZ - spacing`. -/
def advanceSegments (segments : List ℚ) (spacing movement : ℚ) : List ℚ :=
  match segments with
  | [] => []
  | z0 :: rest =>
    let moved := (z0 :: rest).map (· + movement)
    let minZ := ringMin (rest.map (· + movement)) (z0 + movement)
    moved.map fun z => if spacing < z then minZ - spacing else z

/-- Ring states reachable from `init` by frames whose movement is any
nonnegative amount (movement = activeScrollSpeed * dt with dt unbounded). -/
inductive RingReach (S : ℚ) (init : List ℚ) : List ℚ → Prop
  | refl : RingReach S init init
  | step {zs : List ℚ} (m : ℚ) (hm : 0 ≤ m) :
      RingReach S init zs → RingReach S init (advanceSegments zs S m)

/-- Ring states reachable from `init` by frames whose movement is bounded by
the ring spacing. -/
inductive RingReachB (S : ℚ) (init : List ℚ) : List ℚ → Prop
  | refl : RingReachB S init init
  | step {zs : List ℚ} (m : ℚ) (hm : 0 ≤ m) (hms : m ≤ S) :
      RingReachB S init zs → RingReachB S init (advanceSegments zs S m)

/-! ### Locomotion state machine and lateral motion controller -/

/-- Currently-held keys (`keyState` object, lines 106 to 111). -/
structure KeyState where
  forward : Bool
  left : Bool
  right : Bool
  slide : Bool
deriving DecidableEq

/-- Reified completion callbacks.  Each constructor stands for one of the
`onComplete` closures passed to `playState` in the source: the Slide
recovery (lines 250 to 253), the Jump to Fall to Getup chain (lines 262 to
269), and the Run_Idle to Idle hand-off (lines 216 to 218).  `nothing`
stands for an absent `options.onComplete`. -/
inductive Cont where
  | nothing
  | slideRecover
  | jumpChain
  | fallChain
  | getupChain
  | idleAfterRunIdle
deriving DecidableEq

/-- The mutable closure state of the scene: the player-state bookkeeping,
the nullable engine handles (as booleans and options), the held keys and the
lateral controller state.  `pending` models `animationGroupObserver`
(holding the reified completion callback the observer would run),
`animCallback` models `playerAnimatable` together with the end callback
passed to `scene.beginAnimation`, and `playerRoot` models the x coordinate
of the player transform when loaded.  `startedAnims` is an observation log:
one entry `(state, startFrame, endFrame)` per playback actually started,
most recent first, so that restarted versus skipped playback is visible. -/
structure GameState where
  currentPlayerState : PlayerState
  blockingAction : Bool
  activeScrollSpeed : ℚ
  keys : KeyState
  playerRoot : Option ℚ
  hasAnimGroup : Bool
  hasSkeleton : Bool
  animCallback : Option Cont
  pending : Option Cont
  lateralTarget : ℚ
  skelOverrides : List (PlayerState × ℚ × ℚ)
  idleInitialized : Bool
  startedAnims : List (PlayerState × ℚ × ℚ)
deriving DecidableEq

/-- Lateral controller constants, lines 121 to 123. -/
def lateralRange : ℚ := 40

/-- Strafe speed constant, line 122. -/
def lateralSpeed : ℚ := 40

/-- Return-to-zero-target speed constant, line 123. -/
def lateralReturnSpeed : ℚ := 40

/-- The initial closure state at scene construction: `Idle`, not blocking,
scroll speed 0, no keys held, no assets loaded, lateral target 0. -/
def initState : GameState where
  currentPlayerState := .Idle
  blockingAction := false
  activeScrollSpeed := 0
  keys := ⟨false, false, false, false⟩
  playerRoot := none
  hasAnimGroup := false
  hasSkeleton := false
  animCallback := none
  pending := none
  lateralTarget := 0
  skelOverrides := []
  idleInitialized := false
  startedAnims := []

/-- Lookup of a named skeleton animation range, modelling
`playerSkeleton.getAnimationRange(state)` over the explicit override list. -/
def lookupOverride : List (PlayerState × ℚ × ℚ) → PlayerState → Option (ℚ × ℚ)
  | [], _ => none
  | (st, a, b) :: rest, q => if st = q then some (a, b) else lookupOverride rest q

/-- `resolveFrames` (lines 95 to 103): a named skeleton range for the state
takes precedence over the static table frame bounds; otherwise the fallback
table entry supplies them. -/
def resolveFrames (s : GameState) (st : PlayerState) : ℚ × ℚ :=
  let fallback := animationRanges st
  if s.hasSkeleton then
    match lookupOverride s.skelOverrides st with
    | some r => r
    | none => (fallback.start, fallback.endFrame)
  else (fallback.start, fallback.endFrame)

/-- `stopCurrentAnimation` (lines 126 to 138): stop and null the animatable
if present; if the animation group exists, remove and null the completion
observer if present, then stop the group.  The engine-side stop calls have
no closure-state effect beyond the nulled handles. -/
def stopCurrentAnimation (s : GameState) : GameState :=
  let s1 := if s.animCallback.isSome then { s with animCallback := none } else s
  if s1.hasAnimGroup then
    if s1.pending.isSome then { s1 with pending := none } else s1
  else s1

/-- `setScrollForState` (lines 140 to 142): refresh `activeScrollSpeed` from
the table entry of the given state. -/
def setScrollForState (s : GameState) (st : PlayerState) : GameState :=
  { s with activeScrollSpeed := (animationRanges st).scroll }

/-- `playState` (lines 144 to 189).  No-op when neither animation group nor
skeleton is available; cheap scroll-refresh path when re-entering the same
looping state; otherwise stop the in-flight animation, start the new range
(animation-group path first, else skeleton path), register the completion
callback (observer only for non-looping group playback; the skeleton path
always passes the end callback), then update `currentPlayerState`, the
scroll speed and `blockingAction`. -/
def playState (s : GameState) (st : PlayerState) (c : Cont) : GameState :=
  let range := animationRanges st
  if !(s.hasAnimGroup || s.hasSkeleton) then s
  else if s.currentPlayerState = st ∧ range.loop then
    setScrollForState s st
  else
    let fr := resolveFrames s st
    let s1 := stopCurrentAnimation s
    let shouldBlock := !range.loop && isBlocking st
    if s1.hasAnimGroup then
      let s2 := { s1 with startedAnims := (st, fr.1, fr.2) :: s1.startedAnims,
                          pending := if range.loop then s1.pending else some c }
      { s2 with currentPlayerState := st,
                activeScrollSpeed := range.scroll,
                blockingAction := shouldBlock }
    else
      let s2 := { s1 with startedAnims := (st, fr.1, fr.2) :: s1.startedAnims,
                          animCallback := some c }
      { s2 with currentPlayerState := st,
                activeScrollSpeed := range.scroll,
                blockingAction := shouldBlock }

/-- Clamp to the lateral range, as in `setLateralTarget` (lines 191 to 193)
and the position write of `updatePlayerLateralPosition` (line 286). -/
def lateralClamp (v : ℚ) : ℚ := max (-lateralRange) (min lateralRange v)

/-- `setLateralTarget` (lines 191 to 193). -/
def setLateralTarget (s : GameState) (v : ℚ) : GameState :=
  { s with lateralTarget := lateralClamp v }

/-- The x coordinate read `playerRoot ? playerRoot.position.x : 0` used by
`evaluateMovement`, `triggerSlide` and `triggerJump`. -/
def playerX (s : GameState) : ℚ :=
  match s.playerRoot with
  | some x => x
  | none => 0

/-- `transitionToIdle` (lines 205 to 219): refused while blocking; replay
request of `Idle` when already in `Idle`; no-op when already in `Run_Idle`;
otherwise play `Run_Idle` once with `Idle` chained on its completion. -/
def transitionToIdle (s : GameState) : GameState :=
  if s.blockingAction then s
  else if s.currentPlayerState = .Idle then playState s .Idle .nothing
  else if s.currentPlayerState = .Run_Idle then s
  else playState s .Run_Idle .idleAfterRunIdle

/-- `evaluateMovement` (lines 221 to 242): refused while blocking; left held
without right pulls the lateral target to `+lateralRange` and plays
`Strafe_R`; right held without left pulls to `-lateralRange` and plays
`Strafe_L`; otherwise forward held keeps the target at the current x and
plays `Run`; otherwise the target stays at the current x and the idle
transition runs. -/
def evaluateMovement (s : GameState) : GameState :=
  if s.blockingAction then s
  else if s.keys.left && !s.keys.right then
    playState (setLateralTarget s lateralRange) .Strafe_R .nothing
  else if s.keys.right && !s.keys.left then
    playState (setLateralTarget s (-lateralRange)) .Strafe_L .nothing
  else if s.keys.forward then
    playState (setLateralTarget s (playerX s)) .Run .nothing
  else
    transitionToIdle (setLateralTarget s (playerX s))

/-- `triggerSlide` (lines 244 to 255): refused while blocking, else plays
`Slide` with the slide-recovery completion callback. -/
def triggerSlide (s : GameState) : GameState :=
  if s.blockingAction then s
  else playState (setLateralTarget s (playerX s)) .Slide .slideRecover

/-- `triggerJump` (lines 257 to 271): refused while blocking, else plays
`Jump` with the Jump to Fall to Getup completion chain. -/
def triggerJump (s : GameState) : GameState :=
  if s.blockingAction then s
  else playState (setLateralTarget s (playerX s)) .Jump .jumpChain

/-- The bodies of the `onComplete` closures, run by `handleEnd` after it
clears `blockingAction`. -/
def runCont (s : GameState) : Cont → GameState
  | .nothing => s
  | .slideRecover => evaluateMovement { s with keys := { s.keys with slide := false } }
  | .jumpChain => playState s .Fall .fallChain
  | .fallChain => playState s .Getup .getupChain
  | .getupChain => evaluateMovement s
  | .idleAfterRunIdle => playState s .Idle .nothing

/-- The animation-group end observable firing (lines 171 to 177): when an
observer is registered it removes itself, then `handleEnd` clears
`blockingAction` and runs the stored completion callback. -/
def fireCompletion (s : GameState) : GameState :=
  match s.pending with
  | none => s
  | some c => runCont { s with pending := none, blockingAction := false } c

/-- The JS `Math.sign` on rationals. -/
def mathSign (q : ℚ) : ℚ := if 0 < q then 1 else if q < 0 then -1 else 0

/-- `updatePlayerLateralPosition` (lines 273 to 287): nothing before the
player loads; snap to the target when the remaining distance is below 0.01;
otherwise move by `sign(diff) * min((abs diff), speed * dt)` with the
return-speed constant when the target is 0, clamped to the lateral range. -/
def updatePlayerLateralPosition (s : GameState) (dt : ℚ) : GameState :=
  match s.playerRoot with
  | none => s
  | some currentX =>
    let target := s.lateralTarget
    let diff := target - currentX
    if |diff| < 1 / 100 then
      { s with playerRoot := some target }
    else
      let speed := if target = 0 then lateralReturnSpeed else lateralSpeed
      let step := mathSign diff * min |diff| (speed * dt)
      { s with playerRoot := some (lateralClamp (currentX + step)) }

/-- `ensureIdle` (lines 195 to 203): once the character asset is available,
latch `idleInitialized` and start `Idle` exactly once. -/
def ensureIdle (s : GameState) : GameState :=
  if s.idleInitialized then s
  else if s.hasAnimGroup || s.hasSkeleton then
    playState { s with idleInitialized := true } .Idle .nothing
  else s

/-- The key codes handled by the keyboard listeners (lines 295 to 356). -/
inductive KeyCode where
  | w
  | a
  | d
  | s
  | space
deriving DecidableEq

/-- `handleKeyDown` (lines 295 to 328): level keys set their flag and
re-evaluate movement on the press edge only; `KeyS` fires the slide trigger
on its press edge; `Space` fires the jump trigger. -/
def handleKeyDown (s : GameState) : KeyCode → GameState
  | .w =>
    if !s.keys.forward then
      evaluateMovement { s with keys := { s.keys with forward := true } }
    else s
  | .a =>
    if !s.keys.left then
      evaluateMovement { s with keys := { s.keys with left := true } }
    else s
  | .d =>
    if !s.keys.right then
      evaluateMovement { s with keys := { s.keys with right := true } }
    else s
  | .s =>
    if !s.keys.slide then
      triggerSlide { s with keys := { s.keys with slide := true } }
    else s
  | .space => triggerJump s

/-- `handleKeyUp` (lines 330 to 356): level keys clear their flag and
re-evaluate movement on the release edge; `KeyS` only clears its flag. -/
def handleKeyUp (s : GameState) : KeyCode → GameState
  | .w =>
    if s.keys.forward then
      evaluateMovement { s with keys := { s.keys with forward := false } }
    else s
  | .a =>
    if s.keys.left then
      evaluateMovement { s with keys := { s.keys with left := false } }
    else s
  | .d =>
    if s.keys.right then
      evaluateMovement { s with keys := { s.keys with right := false } }
    else s
  | .s => { s with keys := { s.keys with slide := false } }
  | .space => s

/-- The externally driven events that mutate the closure state: key edges,
the per-frame player-motion observer (lateral smoothing then idle latch),
the render loop idle latch, the asynchronous asset-load callback, and the
animation-group end observable. -/
inductive Event where
  | keyDown (k : KeyCode)
  | keyUp (k : KeyCode)
  | frame (dt : ℚ)
  | renderLoop
  | assetsLoaded (g k : Bool) (x : ℚ) (ov : List (PlayerState × ℚ × ℚ))
  | animEnd

/-- Apply one external event to the closure state. -/
def applyEvent (s : GameState) : Event → GameState
  | .keyDown k => handleKeyDown s k
  | .keyUp k => handleKeyUp s k
  | .frame dt => ensureIdle (updatePlayerLateralPosition s dt)
  | .renderLoop => ensureIdle s
  | .assetsLoaded g k x ov =>
    ensureIdle { s with hasAnimGroup := g, hasSkeleton := k,
                        playerRoot := some x, skelOverrides := ov }
  | .animEnd => fireCompletion s

/-- Closure states reachable from scene construction by external events. -/
inductive Reach : GameState → Prop
  | init : Reach initState
  | step {s : GameState} (e : Event) : Reach s → Reach (applyEvent s e)

/-! ### Concrete states used as witness inputs -/

/-- A loaded, idle, non-blocking state: assets present, player at x = 0. -/
def exReady : GameState :=
  { initState with hasAnimGroup := true, playerRoot := some 0, idleInitialized := true }

/-- The ready state with only the left key held. -/
def exLeft : GameState := { exReady with keys := ⟨false, true, false, false⟩ }

/-- The ready state with only the forward key held. -/
def exForward : GameState := { exReady with keys := ⟨true, false, false, false⟩ }

/-- A state mid Jump: blocking, with the jump-chain observer registered. -/
def exBlocked : GameState :=
  { exReady with currentPlayerState := .Jump, blockingAction := true,
                 pending := some .jumpChain }

/-- The ready state with the player held at lateral offset 40 while running. -/
def exHeld40 : GameState :=
  { exReady with playerRoot := some 40, currentPlayerState := .Run }

/-- The scroll-speed bookkeeping invariant of the implicit claim C10. -/
def ScrollOK (s : GameState) : Prop :=
  s.activeScrollSpeed = 0 ∨ s.activeScrollSpeed = baseScrollSpeed

/-! ### Lemmas about the segment recycler -/

theorem ringMin_le_init (l : List ℚ) (a : ℚ) : ringMin l a ≤ a := by
  induction l generalizing a with
  | nil => exact le_refl a
  | cons z rest ih =>
    refine le_trans (ih (if z < a then z else a)) ?_
    split
    · exact le_of_lt (by assumption)
    · exact le_refl a

theorem ringMin_le_mem {x : ℚ} (l : List ℚ) (a : ℚ) (hx : x ∈ l) : ringMin l a ≤ x := by
  induction l generalizing a with
  | nil => cases hx
  | cons z rest ih =>
    rcases List.mem_cons.mp hx with rfl | hmem
    · refine le_trans (ringMin_le_init rest (if x < a then x else a)) ?_
      split
      · exact le_refl x
      · exact le_of_not_lt (by assumption)
    · exact ih (if z < a then z else a) hmem

/-- One recycler frame with movement at most the spacing keeps every segment
at or below the spacing threshold. -/
theorem advanceSegments_preserves_bound {S m : ℚ} (zs : List ℚ)
    (hS : 0 < S) (hm0 : 0 ≤ m) (hmS : m ≤ S)
    (hb : ∀ z ∈ zs, z ≤ S) :
    ∀ z ∈ advanceSegments zs S m, z ≤ S := by
  cases zs with
  | nil => intro z hz; simp [advanceSegments] at hz
  | cons z0 rest =>
    intro z hz
    simp only [advanceSegments, List.map_map, List.mem_map, Function.comp] at hz
    obtain ⟨y, hy, rfl⟩ := hz
    split
    · have h0 : ringMin (rest.map (· + m)) (z0 + m) ≤ z0 + m := ringMin_le_init _ _
      have hz0 : z0 ≤ S := hb z0 (List.mem_cons_self z0 rest)
      linarith
    · have : ¬ S < y + m := by assumption
      linarith [le_of_not_lt this]

/-! ### Claim theorems -/

/-- C2: every frame of the recycler adds the movement to every segment z,
computes the minimum z over the ring after advancing, and teleports every
segment whose z exceeds the spacing to that minimum minus the spacing; the
member count is preserved; and on the 3-segment ring at z 0, -160, -320 with
spacing 160 and movement 200 the resulting ring is -280, 40, -120. -/
theorem advanceSegments_frame_spec (segs : List ℚ) (S m : ℚ) (h : segs ≠ []) :
    advanceSegments segs S m
      = segs.map (fun z =>
          if S < z + m then ringMinAll (segs.map (· + m)) - S else z + m)
    ∧ (advanceSegments segs S m).length = segs.length
    ∧ advanceSegments [0, -160, -320] 160 200 = [-280, 40, -120] := by
  obtain ⟨z0, rest, rfl⟩ := List.exists_cons_of_ne_nil h
  refine ⟨?_, ?_, by norm_num [advanceSegments, ringMin]⟩
  · simp [advanceSegments, ringMinAll, List.map_map, Function.comp]
  · simp [advanceSegments, List.map_map]

/-- Witness for C2 at the concrete scenario ring. -/
theorem advanceSegments_frame_spec_witness :
    advanceSegments [0, -160, -320] 160 200 = [-280, 40, -120] :=
  (advanceSegments_frame_spec [0, -160, -320] 160 200 (by simp)).2.2

/-- C7 amended: from an initial ring whose members all sit at or below the
spacing S, along frames whose movement lies between 0 and S, every reachable
ring keeps all segments at or below S, and mid-frame (after advancing by m,
before the same-frame snap-back) no segment exceeds S + m. -/
theorem ring_overshoot_bound (S : ℚ) (init zs : List ℚ)
    (hS : 0 < S) (hinit : ∀ z ∈ init, z ≤ S) (hr : RingReachB S init zs) :
    (∀ z ∈ zs, z ≤ S) ∧ ∀ m, 0 ≤ m → ∀ z ∈ zs.map (· + m), z ≤ S + m := by
  have main : ∀ z ∈ zs, z ≤ S := by
    induction hr with
    | refl => exact hinit
    | step m hm hms _ ih => exact advanceSegments_preserves_bound _ hS hm hms ih
  refine ⟨main, ?_⟩
  intro m hm z hz
  obtain ⟨y, hy, rfl⟩ := List.mem_map.mp hz
  have := main y hy
  linarith

/-- Witness for C7: one bounded frame from the scenario ring stays within
the spacing bound. -/
theorem ring_overshoot_bound_witness :
    RingReachB 160 [(0:ℚ), -160, -320] (advanceSegments [0, -160, -320] 160 100)
    ∧ (100:ℚ) ∈ advanceSegments [(0:ℚ), -160, -320] 160 100
    ∧ (100:ℚ) ≤ 160 := by
  have hr : RingReachB 160 [(0:ℚ), -160, -320]
      (advanceSegments [0, -160, -320] 160 100) :=
    RingReachB.step 100 (by norm_num) (by norm_num) RingReachB.refl
  have h := ring_overshoot_bound 160 [0, -160, -320] _ (by norm_num) (by norm_num) hr
  have hmem : (100:ℚ) ∈ advanceSegments [(0:ℚ), -160, -320] 160 100 := by
    norm_num [advanceSegments, ringMin]
  exact ⟨hr, hmem, h.1 100 hmem⟩

/-- Counterexample for C7 as stated: one oversized frame (movement 1000)
reaches the ring 520, 520, 520, and the next frame with movement 1 raises a
segment to 361, exceeding the spacing 160 by more than that frame movement. -/
theorem ring_overshoot_counterexample :
    RingReach 160 [(0:ℚ), -160, -320] [520, 520, 520]
    ∧ advanceSegments [(520:ℚ), 520, 520] 160 1 = [361, 361, 361]
    ∧ ¬ ((361:ℚ) ≤ 160 + 1) := by
  refine ⟨?_, by norm_num [advanceSegments, ringMin], by norm_num⟩
  have h : RingReach 160 [(0:ℚ), -160, -320]
      (advanceSegments [(0:ℚ), -160, -320] 160 1000) :=
    RingReach.step 1000 (by norm_num) RingReach.refl
  have e : advanceSegments [(0:ℚ), -160, -320] 160 1000 = [520, 520, 520] := by
    norm_num [advanceSegments, ringMin]
  rwa [e] at h

/-! ### Characterization lemmas for the state machine -/

theorem stopCurrentAnimation_eq (s : GameState) :
    stopCurrentAnimation s
      = { s with animCallback := none,
                 pending := if s.hasAnimGroup then none else s.pending } := by
  cases s with
  | mk cur ba sp keys root hg hsk ac pd lt ov ii sa =>
    simp only [stopCurrentAnimation]
    cases ac <;> cases hg <;> cases pd <;> simp

theorem playState_noSource (s : GameState) (st : PlayerState) (c : Cont)
    (hg : s.hasAnimGroup = false) (hs : s.hasSkeleton = false) :
    playState s st c = s := by
  simp [playState, hg, hs]

theorem playState_same_loop (s : GameState) (st : PlayerState) (c : Cont)
    (hsrc : (s.hasAnimGroup || s.hasSkeleton) = true)
    (hcur : s.currentPlayerState = st) (hl : (animationRanges st).loop = true) :
    playState s st c = { s with activeScrollSpeed := (animationRanges st).scroll } := by
  simp [playState, hsrc, hcur, hl, setScrollForState]

theorem playState_start_group (s : GameState) (st : PlayerState) (c : Cont)
    (hg : s.hasAnimGroup = true)
    (hskip : ¬(s.currentPlayerState = st ∧ (animationRanges st).loop = true)) :
    playState s st c
      = { s with animCallback := none,
                 pending := if (animationRanges st).loop then none else some c,
                 startedAnims :=
                   (st, (resolveFrames s st).1, (resolveFrames s st).2) :: s.startedAnims,
                 currentPlayerState := st,
                 activeScrollSpeed := (animationRanges st).scroll,
                 blockingAction := !(animationRanges st).loop && isBlocking st } := by
  simp only [playState, hg, Bool.true_or, Bool.not_true, Bool.false_eq_true, if_false,
    stopCurrentAnimation_eq]
  rw [if_neg hskip]
  simp [hg]

theorem playState_start_skel (s : GameState) (st : PlayerState) (c : Cont)
    (hg : s.hasAnimGroup = false) (hsk : s.hasSkeleton = true)
    (hskip : ¬(s.currentPlayerState = st ∧ (animationRanges st).loop = true)) :
    playState s st c
      = { s with animCallback := some c,
                 startedAnims :=
                   (st, (resolveFrames s st).1, (resolveFrames s st).2) :: s.startedAnims,
                 currentPlayerState := st,
                 activeScrollSpeed := (animationRanges st).scroll,
                 blockingAction := !(animationRanges st).loop && isBlocking st } := by
  simp only [playState, hg, hsk, Bool.false_or, Bool.not_true, Bool.false_eq_true, if_false,
    stopCurrentAnimation_eq]
  rw [if_neg hskip]

theorem playState_preserves (s : GameState) (st : PlayerState) (c : Cont) :
    (playState s st c).keys = s.keys
    ∧ (playState s st c).playerRoot = s.playerRoot
    ∧ (playState s st c).lateralTarget = s.lateralTarget
    ∧ (playState s st c).hasAnimGroup = s.hasAnimGroup
    ∧ (playState s st c).hasSkeleton = s.hasSkeleton
    ∧ (playState s st c).skelOverrides = s.skelOverrides
    ∧ (playState s st c).idleInitialized = s.idleInitialized := by
  by_cases h2 : s.currentPlayerState = st ∧ (animationRanges st).loop = true
  · by_cases h1 : (s.hasAnimGroup || s.hasSkeleton) = true
    · rw [playState_same_loop s st c h1 h2.1 h2.2]
      exact ⟨rfl, rfl, rfl, rfl, rfl, rfl, rfl⟩
    · have hga : s.hasAnimGroup = false := by
        cases hA : s.hasAnimGroup <;> simp_all
      have hsk : s.hasSkeleton = false := by
        cases hS : s.hasSkeleton <;> simp_all
      rw [playState_noSource s st c hga hsk]
      exact ⟨rfl, rfl, rfl, rfl, rfl, rfl, rfl⟩
  · by_cases h3 : s.hasAnimGroup = true
    · rw [playState_start_group s st c h3 h2]
      exact ⟨rfl, rfl, rfl, rfl, rfl, rfl, rfl⟩
    · have hga : s.hasAnimGroup = false := by simpa using h3
      by_cases h4 : s.hasSkeleton = true
      · rw [playState_start_skel s st c hga h4 h2]
        exact ⟨rfl, rfl, rfl, rfl, rfl, rfl, rfl⟩
      · have hsk : s.hasSkeleton = false := by simpa using h4
        rw [playState_noSource s st c hga hsk]
        exact ⟨rfl, rfl, rfl, rfl, rfl, rfl, rfl⟩

theorem playState_current (s : GameState) (st : PlayerState) (c : Cont)
    (hsrc : (s.hasAnimGroup || s.hasSkeleton) = true) :
    (playState s st c).currentPlayerState = st
    ∧ (playState s st c).activeScrollSpeed = (animationRanges st).scroll := by
  by_cases h2 : s.currentPlayerState = st ∧ (animationRanges st).loop = true
  · rw [playState_same_loop s st c hsrc h2.1 h2.2]
    exact ⟨h2.1, rfl⟩
  · by_cases h3 : s.hasAnimGroup = true
    · rw [playState_start_group s st c h3 h2]
      exact ⟨rfl, rfl⟩
    · have hga : s.hasAnimGroup = false := by simpa using h3
      have hsk : s.hasSkeleton = true := by
        rw [hga] at hsrc
        simpa using hsrc
      rw [playState_start_skel s st c hga hsk h2]
      exact ⟨rfl, rfl⟩

theorem fireCompletion_pending (s : GameState) (c : Cont) (h : s.pending = some c) :
    fireCompletion s = runCont { s with pending := none, blockingAction := false } c := by
  simp [fireCompletion, h]

theorem transitionToIdle_preserves (s : GameState) :
    (transitionToIdle s).lateralTarget = s.lateralTarget
    ∧ (transitionToIdle s).playerRoot = s.playerRoot := by
  unfold transitionToIdle
  split
  · exact ⟨rfl, rfl⟩
  · split
    · have h := playState_preserves s .Idle .nothing
      exact ⟨h.2.2.1, h.2.1⟩
    · split
      · exact ⟨rfl, rfl⟩
      · have h := playState_preserves s .Run_Idle .idleAfterRunIdle
        exact ⟨h.2.2.1, h.2.1⟩

theorem lateralClamp_eq_self {v : ℚ} (h1 : -lateralRange ≤ v) (h2 : v ≤ lateralRange) :
    lateralClamp v = v := by
  unfold lateralClamp
  rw [min_eq_right h2, max_eq_right h1]

theorem lateralClamp_range : lateralClamp lateralRange = lateralRange :=
  lateralClamp_eq_self (by norm_num [lateralRange]) le_rfl

theorem lateralClamp_neg_range : lateralClamp (-lateralRange) = -lateralRange :=
  lateralClamp_eq_self le_rfl (by norm_num [lateralRange])

theorem nonloop_skip {u : GameState} {st : PlayerState}
    (h : (animationRanges st).loop = false) :
    ¬(u.currentPlayerState = st ∧ (animationRanges st).loop = true) := by
  simp [h]

/-! ### State-machine claim theorems -/

/-- C1: while `blockingAction` is true, every non-forced transition request
(movement re-evaluation, slide trigger, jump trigger, idle transition)
returns the state unchanged, so `currentPlayerState` can change only through
the in-flight blocking chain completion callbacks. -/
theorem blocking_suppresses_requests (s : GameState) (hb : s.blockingAction = true) :
    evaluateMovement s = s ∧ triggerSlide s = s ∧ triggerJump s = s
    ∧ transitionToIdle s = s := by
  refine ⟨?_, ?_, ?_, ?_⟩ <;>
    simp [evaluateMovement, triggerSlide, triggerJump, transitionToIdle, hb]

/-- Witness for C1 at a concrete mid-Jump blocking state. -/
theorem blocking_suppresses_requests_witness :
    evaluateMovement exBlocked = exBlocked ∧ triggerSlide exBlocked = exBlocked
    ∧ triggerJump exBlocked = exBlocked ∧ transitionToIdle exBlocked = exBlocked :=
  blocking_suppresses_requests exBlocked rfl

/-- C5 amended: while the animation handle and skeleton are both unavailable,
`playState` returns the state entirely unchanged: no playback, and no
`currentPlayerState` bookkeeping update either (the bookkeeping-only update
claimed by the spec belongs to the alternate variant `setPlayerState`). -/
theorem playState_asset_unavailable (s : GameState) (st : PlayerState) (c : Cont)
    (hg : s.hasAnimGroup = false) (hs : s.hasSkeleton = false) :
    playState s st c = s :=
  playState_noSource s st c hg hs

/-- Witness for C5 at the initial pre-asset state. -/
theorem playState_asset_unavailable_witness :
    playState initState .Run .nothing = initState :=
  playState_asset_unavailable initState .Run .nothing rfl rfl

/-- Counterexample for C5 as stated: requesting `Run` before assets load
leaves `currentPlayerState` at `Idle`, so no bookkeeping update happens. -/
theorem playState_asset_unavailable_counterexample :
    initState.hasAnimGroup = false ∧ initState.hasSkeleton = false
    ∧ (playState initState .Run .nothing).currentPlayerState = .Idle
    ∧ PlayerState.Idle ≠ PlayerState.Run := by
  refine ⟨rfl, rfl, ?_, by decide⟩
  rw [playState_noSource initState .Run .nothing rfl rfl]
  rfl

/-- C8: requesting the state that is already current refreshes only
`activeScrollSpeed` for a looping state (the whole record is otherwise
unchanged, so playback is not restarted), while for a non-looping state a
new playback of the resolved range is started from its start frame. -/
theorem same_state_reentry (s : GameState) (st : PlayerState) (c : Cont)
    (hsrc : (s.hasAnimGroup || s.hasSkeleton) = true)
    (hcur : s.currentPlayerState = st) :
    ((animationRanges st).loop = true →
       playState s st c = { s with activeScrollSpeed := (animationRanges st).scroll })
    ∧ ((animationRanges st).loop = false →
       (playState s st c).startedAnims
         = (st, (resolveFrames s st).1, (resolveFrames s st).2) :: s.startedAnims
       ∧ (playState s st c).currentPlayerState = st) := by
  constructor
  · intro hl
    exact playState_same_loop s st c hsrc hcur hl
  · intro hl
    have hskip : ¬(s.currentPlayerState = st ∧ (animationRanges st).loop = true) := by
      simp [hl]
    by_cases h3 : s.hasAnimGroup = true
    · rw [playState_start_group s st c h3 hskip]
      exact ⟨rfl, rfl⟩
    · have hga : s.hasAnimGroup = false := by simpa using h3
      have hsk : s.hasSkeleton = true := by
        rw [hga] at hsrc
        simpa using hsrc
      rw [playState_start_skel s st c hga hsk hskip]
      exact ⟨rfl, rfl⟩

/-- Witness for C8: re-entering the looping `Idle` state only refreshes the
scroll speed. -/
theorem same_state_reentry_witness :
    playState exReady .Idle .nothing = { exReady with activeScrollSpeed := 0 }
    ∧ (animationRanges PlayerState.Idle).loop = true := by
  have h := same_state_reentry exReady .Idle .nothing rfl rfl
  exact ⟨h.1 rfl, rfl⟩

/-- C9: `stopCurrentAnimation` is idempotent on the closure state; it nulls
the animatable handle, and with an animation group present it also nulls the
completion-observer handle, so the second call removes nothing. -/
theorem stopCurrentAnimation_idempotent (s : GameState) :
    stopCurrentAnimation (stopCurrentAnimation s) = stopCurrentAnimation s
    ∧ (stopCurrentAnimation s).animCallback = none
    ∧ (s.hasAnimGroup = true → (stopCurrentAnimation s).pending = none) := by
  rw [stopCurrentAnimation_eq s, stopCurrentAnimation_eq]
  refine ⟨?_, rfl, ?_⟩
  · cases hg : s.hasAnimGroup <;> simp [hg]
  · intro hg
    simp [hg]

/-- Witness for C9 at the concrete mid-Jump state with a live observer. -/
theorem stopCurrentAnimation_idempotent_witness :
    stopCurrentAnimation (stopCurrentAnimation exBlocked) = stopCurrentAnimation exBlocked
    ∧ (stopCurrentAnimation exBlocked).animCallback = none
    ∧ (stopCurrentAnimation exBlocked).pending = none := by
  have h := stopCurrentAnimation_idempotent exBlocked
  exact ⟨h.1, h.2.1, h.2.2 rfl⟩

/-- C3: triggering Jump from a non-blocking state (with the animation group
loaded) plays `Jump`; each animation-group completion then drives
`Fall`, then `Getup`, and `blockingAction` stays true through all three;
the final completion re-evaluates movement from the currently held input. -/
theorem jump_chain (s : GameState) (hb : s.blockingAction = false)
    (hg : s.hasAnimGroup = true) :
    (triggerJump s).currentPlayerState = .Jump
    ∧ (triggerJump s).blockingAction = true
    ∧ (fireCompletion (triggerJump s)).currentPlayerState = .Fall
    ∧ (fireCompletion (triggerJump s)).blockingAction = true
    ∧ (fireCompletion (fireCompletion (triggerJump s))).currentPlayerState = .Getup
    ∧ (fireCompletion (fireCompletion (triggerJump s))).blockingAction = true
    ∧ fireCompletion (fireCompletion (fireCompletion (triggerJump s)))
        = evaluateMovement
            { fireCompletion (fireCompletion (triggerJump s)) with
                pending := none, blockingAction := false } := by
  have hgt : (setLateralTarget s (playerX s)).hasAnimGroup = true := hg
  have E1 : triggerJump s = playState (setLateralTarget s (playerX s)) .Jump .jumpChain := by
    simp [triggerJump, hb]
  have E2 := playState_start_group (setLateralTarget s (playerX s)) .Jump .jumpChain hgt
    (nonloop_skip rfl)
  have s1pending : (triggerJump s).pending = some Cont.jumpChain := by rw [E1, E2]; rfl
  have s1group : (triggerJump s).hasAnimGroup = true := by rw [E1, E2]; exact hg
  have E3 : fireCompletion (triggerJump s)
      = playState { triggerJump s with pending := none, blockingAction := false }
          .Fall .fallChain :=
    fireCompletion_pending (triggerJump s) Cont.jumpChain s1pending
  have hgu1 : ({ triggerJump s with pending := none, blockingAction := false }
      : GameState).hasAnimGroup = true := s1group
  have E4 := playState_start_group
    { triggerJump s with pending := none, blockingAction := false } .Fall .fallChain hgu1
    (nonloop_skip rfl)
  have s2pending : (fireCompletion (triggerJump s)).pending = some Cont.fallChain := by
    rw [E3, E4]; rfl
  have s2group : (fireCompletion (triggerJump s)).hasAnimGroup = true := by
    rw [E3, E4]; exact s1group
  have E5 : fireCompletion (fireCompletion (triggerJump s))
      = playState
          { fireCompletion (triggerJump s) with pending := none, blockingAction := false }
          .Getup .getupChain :=
    fireCompletion_pending (fireCompletion (triggerJump s)) Cont.fallChain s2pending
  have hgu2 : ({ fireCompletion (triggerJump s) with
      pending := none, blockingAction := false } : GameState).hasAnimGroup = true := s2group
  have E6 := playState_start_group
    { fireCompletion (triggerJump s) with pending := none, blockingAction := false }
    .Getup .getupChain hgu2 (nonloop_skip rfl)
  have s3pending : (fireCompletion (fireCompletion (triggerJump s))).pending
      = some Cont.getupChain := by
    rw [E5, E6]; rfl
  have E7 : fireCompletion (fireCompletion (fireCompletion (triggerJump s)))
      = evaluateMovement
          { fireCompletion (fireCompletion (triggerJump s)) with
              pending := none, blockingAction := false } :=
    fireCompletion_pending (fireCompletion (fireCompletion (triggerJump s)))
      Cont.getupChain s3pending
  refine ⟨?_, ?_, ?_, ?_, ?_, ?_, E7⟩
  · rw [E1, E2]
  · rw [E1, E2]; rfl
  · rw [E3, E4]
  · rw [E3, E4]; rfl
  · rw [E5, E6]
  · rw [E5, E6]; rfl

/-- Witness for C3: the Jump chain fired from the ready state with forward
held ends in `Run` after the post-Getup movement re-evaluation. -/
theorem jump_chain_witness :
    exForward.blockingAction = false ∧ exForward.hasAnimGroup = true
    ∧ (triggerJump exForward).currentPlayerState = .Jump
    ∧ (fireCompletion (fireCompletion (fireCompletion
        (triggerJump exForward)))).currentPlayerState = .Run := by
  have h := jump_chain exForward rfl rfl
  refine ⟨rfl, rfl, h.1, ?_⟩
  rw [h.2.2.2.2.2.2]
  rfl

/-- C4 amended: in a non-blocking context with assets loaded, movement
re-evaluation follows this priority: left held without right pulls the
lateral target to `+lateralRange` and plays `Strafe_R`; right held without
left pulls to `-lateralRange` and plays `Strafe_L`; otherwise forward held
plays `Run`; otherwise the idle path runs: if already `Idle`, only the
scroll speed is refreshed (no restart); if in `Run_Idle`, no-op; else
`Run_Idle` starts with `Idle` chained on its completion. -/
theorem movement_priority (s : GameState) (hb : s.blockingAction = false)
    (hg : s.hasAnimGroup = true) :
    (s.keys.left = true → s.keys.right = false →
       (evaluateMovement s).currentPlayerState = .Strafe_R
       ∧ (evaluateMovement s).lateralTarget = lateralRange)
    ∧ (s.keys.right = true → s.keys.left = false →
       (evaluateMovement s).currentPlayerState = .Strafe_L
       ∧ (evaluateMovement s).lateralTarget = -lateralRange)
    ∧ (s.keys.left = s.keys.right → s.keys.forward = true →
       (evaluateMovement s).currentPlayerState = .Run)
    ∧ (s.keys.left = s.keys.right → s.keys.forward = false →
       (s.currentPlayerState = .Idle →
          evaluateMovement s
            = { s with lateralTarget := lateralClamp (playerX s), activeScrollSpeed := 0 })
       ∧ (s.currentPlayerState = .Run_Idle →
          evaluateMovement s = { s with lateralTarget := lateralClamp (playerX s) })
       ∧ (s.currentPlayerState ≠ .Idle → s.currentPlayerState ≠ .Run_Idle →
          (evaluateMovement s).currentPlayerState = .Run_Idle
          ∧ (evaluateMovement s).pending = some .idleAfterRunIdle
          ∧ (fireCompletion (evaluateMovement s)).currentPlayerState = .Idle)) := by
  refine ⟨?_, ?_, ?_, ?_⟩
  · intro hl hr
    have e : evaluateMovement s
        = playState (setLateralTarget s lateralRange) .Strafe_R .nothing := by
      simp [evaluateMovement, hb, hl, hr]
    have hsrc : ((setLateralTarget s lateralRange).hasAnimGroup
        || (setLateralTarget s lateralRange).hasSkeleton) = true := by
      simp [setLateralTarget, hg]
    constructor
    · rw [e]
      exact (playState_current _ _ _ hsrc).1
    · rw [e, (playState_preserves _ _ _).2.2.1]
      exact lateralClamp_range
  · intro hr hl
    have e : evaluateMovement s
        = playState (setLateralTarget s (-lateralRange)) .Strafe_L .nothing := by
      simp [evaluateMovement, hb, hl, hr]
    have hsrc : ((setLateralTarget s (-lateralRange)).hasAnimGroup
        || (setLateralTarget s (-lateralRange)).hasSkeleton) = true := by
      simp [setLateralTarget, hg]
    constructor
    · rw [e]
      exact (playState_current _ _ _ hsrc).1
    · rw [e, (playState_preserves _ _ _).2.2.1]
      exact lateralClamp_neg_range
  · intro hlr hf
    have hc1 : (s.keys.left && !s.keys.right) = false := by
      rw [hlr]; cases s.keys.right <;> rfl
    have hc2 : (s.keys.right && !s.keys.left) = false := by
      rw [hlr]; cases s.keys.right <;> rfl
    have e : evaluateMovement s
        = playState (setLateralTarget s (playerX s)) .Run .nothing := by
      simp [evaluateMovement, hb, hc1, hc2, hf]
    have hsrc : ((setLateralTarget s (playerX s)).hasAnimGroup
        || (setLateralTarget s (playerX s)).hasSkeleton) = true := by
      simp [setLateralTarget, hg]
    rw [e]
    exact (playState_current _ _ _ hsrc).1
  · intro hlr hf
    have hc1 : (s.keys.left && !s.keys.right) = false := by
      rw [hlr]; cases s.keys.right <;> rfl
    have hc2 : (s.keys.right && !s.keys.left) = false := by
      rw [hlr]; cases s.keys.right <;> rfl
    have e : evaluateMovement s = transitionToIdle (setLateralTarget s (playerX s)) := by
      simp [evaluateMovement, hb, hc1, hc2, hf]
    have hsrc : ((setLateralTarget s (playerX s)).hasAnimGroup
        || (setLateralTarget s (playerX s)).hasSkeleton) = true := by
      simp [setLateralTarget, hg]
    refine ⟨?_, ?_, ?_⟩
    · intro hI
      have e2 : transitionToIdle (setLateralTarget s (playerX s))
          = playState (setLateralTarget s (playerX s)) .Idle .nothing := by
        simp [transitionToIdle, setLateralTarget, hb, hI]
      rw [e, e2, playState_same_loop _ .Idle .nothing hsrc (by simpa [setLateralTarget] using hI) rfl]
      rfl
    · intro hRI
      rw [e]
      simp [transitionToIdle, setLateralTarget, hb, hRI]
    · intro hnI hnRI
      have e2 : evaluateMovement s
          = playState (setLateralTarget s (playerX s)) .Run_Idle .idleAfterRunIdle := by
        rw [e]
        simp [transitionToIdle, setLateralTarget, hb, hnI, hnRI]
      have hcur : (evaluateMovement s).currentPlayerState = .Run_Idle := by
        rw [e2]
        exact (playState_current _ _ _ hsrc).1
      have hpend : (evaluateMovement s).pending = some Cont.idleAfterRunIdle := by
        rw [e2, playState_start_group (setLateralTarget s (playerX s)) .Run_Idle
          .idleAfterRunIdle hg (nonloop_skip rfl)]; rfl
      have hgrp : (evaluateMovement s).hasAnimGroup = true := by
        rw [e2, (playState_preserves _ _ _).2.2.2.1]
        exact hg
      refine ⟨hcur, hpend, ?_⟩
      rw [fireCompletion_pending (evaluateMovement s) Cont.idleAfterRunIdle hpend]
      have hsrc2 : (({ evaluateMovement s with pending := none, blockingAction := false }
          : GameState).hasAnimGroup
          || ({ evaluateMovement s with pending := none, blockingAction := false }
          : GameState).hasSkeleton) = true := by
        simp [hgrp]
      exact (playState_current _ .Idle .nothing hsrc2).1

/-- Witness for C4 at the concrete left-held ready state. -/
theorem movement_priority_witness :
    exLeft.blockingAction = false ∧ exLeft.hasAnimGroup = true ∧ exLeft.keys.left = true
    ∧ (evaluateMovement exLeft).currentPlayerState = .Strafe_R
    ∧ (evaluateMovement exLeft).lateralTarget = lateralRange := by
  have h := movement_priority exLeft rfl rfl
  exact ⟨rfl, rfl, rfl, (h.1 rfl rfl).1, (h.1 rfl rfl).2⟩

/-- Counterexample for C4 as stated: with only left held the code plays
`Strafe_R`, not `Strafe_L`; and re-requesting `Idle` while already idle
starts no playback (the log stays empty), rather than replaying `Idle`. -/
theorem movement_priority_counterexample :
    exLeft.keys.left = true ∧ exLeft.keys.right = false
    ∧ (evaluateMovement exLeft).currentPlayerState = .Strafe_R
    ∧ PlayerState.Strafe_R ≠ PlayerState.Strafe_L
    ∧ exReady.currentPlayerState = .Idle
    ∧ (evaluateMovement exReady).startedAnims = [] := by
  exact ⟨rfl, rfl, rfl, by decide, rfl, rfl⟩

/-- C6 amended: the per-frame lateral update snaps to the target below the
0.01 epsilon, otherwise moves by `sign(diff) * min((abs diff), speed * dt)`
with the return speed selected when the target is 0, clamped to the lateral
range; the position never overshoots the target; and after release with no
key held, the movement re-evaluation sets the target to the current x, so
the position holds there instead of returning to 0. -/
theorem lateral_update_spec (s : GameState) (dt x : ℚ) (hroot : s.playerRoot = some x)
    (hdt : 0 ≤ dt) (hx : |x| ≤ lateralRange) (ht : |s.lateralTarget| ≤ lateralRange) :
    (|s.lateralTarget - x| < 1 / 100 →
       (updatePlayerLateralPosition s dt).playerRoot = some s.lateralTarget)
    ∧ (¬ (|s.lateralTarget - x| < 1 / 100) →
       (updatePlayerLateralPosition s dt).playerRoot
         = some (lateralClamp (x + mathSign (s.lateralTarget - x)
             * min |s.lateralTarget - x|
                 ((if s.lateralTarget = 0 then lateralReturnSpeed else lateralSpeed) * dt))))
    ∧ (∀ y, (updatePlayerLateralPosition s dt).playerRoot = some y →
        min x s.lateralTarget ≤ y ∧ y ≤ max x s.lateralTarget)
    ∧ (s.keys = ⟨false, false, false, false⟩ → s.blockingAction = false →
        (evaluateMovement s).lateralTarget = x
        ∧ (updatePlayerLateralPosition (evaluateMovement s) dt).playerRoot = some x) := by
  have hxb := abs_le.mp hx
  have htb := abs_le.mp ht
  have snap : |s.lateralTarget - x| < 1 / 100 →
      (updatePlayerLateralPosition s dt).playerRoot = some s.lateralTarget := by
    intro h
    simp only [updatePlayerLateralPosition, hroot]
    rw [if_pos h]
  have far : ¬ (|s.lateralTarget - x| < 1 / 100) →
      (updatePlayerLateralPosition s dt).playerRoot
        = some (lateralClamp (x + mathSign (s.lateralTarget - x)
            * min |s.lateralTarget - x|
                ((if s.lateralTarget = 0 then lateralReturnSpeed else lateralSpeed) * dt))) := by
    intro h
    simp only [updatePlayerLateralPosition, hroot]
    rw [if_neg h]
  refine ⟨snap, far, ?_, ?_⟩
  · intro y hy
    by_cases h : |s.lateralTarget - x| < 1 / 100
    · rw [snap h] at hy
      obtain rfl := Option.some_injective ℚ hy
      exact ⟨min_le_right x s.lateralTarget, le_max_right x s.lateralTarget⟩
    · rw [far h] at hy
      have hspeed : (if s.lateralTarget = 0 then lateralReturnSpeed else lateralSpeed)
          = 40 := by
        split <;> rfl
      have hsd : 0 ≤ (40:ℚ) * dt := by nlinarith
      have hdne : s.lateralTarget - x ≠ 0 := by
        intro h0
        exact h (by rw [h0]; norm_num)
      rcases lt_or_gt_of_ne hdne with hneg | hpos
      · have hs1 : mathSign (s.lateralTarget - x) = -1 := by
          have hnl : ¬ (0 < s.lateralTarget - x) := not_lt.mpr (le_of_lt hneg)
          simp [mathSign, hnl, hneg]
        have habs : |s.lateralTarget - x| = -(s.lateralTarget - x) := abs_of_neg hneg
        rw [hspeed, hs1, habs] at hy
        have hmin1 : min (-(s.lateralTarget - x)) (40 * dt) ≤ -(s.lateralTarget - x) :=
          min_le_left _ _
        have hmin0 : 0 ≤ min (-(s.lateralTarget - x)) (40 * dt) :=
          le_min (by linarith) hsd
        have hlow : s.lateralTarget ≤ x + -1 * min (-(s.lateralTarget - x)) (40 * dt) := by
          linarith
        have hhigh : x + -1 * min (-(s.lateralTarget - x)) (40 * dt) ≤ x := by
          linarith
        rw [lateralClamp_eq_self (by unfold lateralRange at htb ⊢; linarith [htb.1])
          (by unfold lateralRange at hxb ⊢; linarith [hxb.2])] at hy
        obtain rfl := Option.some_injective ℚ hy
        constructor
        · exact le_trans (min_le_right x s.lateralTarget) hlow
        · exact le_trans hhigh (le_max_left x s.lateralTarget)
      · have hs1 : mathSign (s.lateralTarget - x) = 1 := by
          simp [mathSign, hpos]
        have habs : |s.lateralTarget - x| = s.lateralTarget - x := abs_of_pos hpos
        rw [hspeed, hs1, habs] at hy
        have hmin1 : min (s.lateralTarget - x) (40 * dt) ≤ s.lateralTarget - x :=
          min_le_left _ _
        have hmin0 : 0 ≤ min (s.lateralTarget - x) (40 * dt) :=
          le_min (by linarith) hsd
        have hlow : x ≤ x + 1 * min (s.lateralTarget - x) (40 * dt) := by
          linarith
        have hhigh : x + 1 * min (s.lateralTarget - x) (40 * dt) ≤ s.lateralTarget := by
          linarith
        rw [lateralClamp_eq_self (by unfold lateralRange at hxb ⊢; linarith [hxb.1])
          (by unfold lateralRange at htb ⊢; linarith [htb.2])] at hy
        obtain rfl := Option.some_injective ℚ hy
        constructor
        · exact le_trans (min_le_left x s.lateralTarget) hlow
        · exact le_trans hhigh (le_max_right x s.lateralTarget)
  · intro hk hb2
    have e : evaluateMovement s = transitionToIdle (setLateralTarget s (playerX s)) := by
      simp [evaluateMovement, hb2, hk]
    have hX : playerX s = x := by simp [playerX, hroot]
    have ht1 : (evaluateMovement s).lateralTarget = x := by
      rw [e, (transitionToIdle_preserves _).1]
      show lateralClamp (playerX s) = x
      rw [hX]
      exact lateralClamp_eq_self hxb.1 hxb.2
    have hroot1 : (evaluateMovement s).playerRoot = some x := by
      rw [e, (transitionToIdle_preserves _).2]
      show s.playerRoot = some x
      exact hroot
    refine ⟨ht1, ?_⟩
    have hclose : |(evaluateMovement s).lateralTarget - x| < 1 / 100 := by
      rw [ht1]
      norm_num
    simp [updatePlayerLateralPosition, hroot1, hclose, ht1]

/-- Witness for C6 at the running state held at lateral offset 40 with all
keys released: the position stays at 40 over a full one-second frame. -/
theorem lateral_update_spec_witness :
    (evaluateMovement exHeld40).lateralTarget = 40
    ∧ (updatePlayerLateralPosition (evaluateMovement exHeld40) 1).playerRoot = some 40 := by
  have h := lateral_update_spec exHeld40 1 40 rfl (by norm_num)
    (by norm_num [exHeld40, exReady, initState, lateralRange])
    (by norm_num [exHeld40, exReady, initState, lateralRange])
  exact ⟨(h.2.2.2 rfl rfl).1, (h.2.2.2 rfl rfl).2⟩

/-- Counterexample for C6 as stated: after releasing the strafe key with no
other key held at offset 40, a full second at return speed 40 would reach 0,
but the player stays at 40: the lateral position does not return to 0. -/
theorem lateral_release_counterexample :
    exHeld40.keys = ⟨false, false, false, false⟩
    ∧ (evaluateMovement exHeld40).lateralTarget = 40
    ∧ (updatePlayerLateralPosition (evaluateMovement exHeld40) 1).playerRoot = some 40
    ∧ (40:ℚ) ≠ 0 := by
  have e : evaluateMovement exHeld40
      = transitionToIdle (setLateralTarget exHeld40 (playerX exHeld40)) := by
    simp [evaluateMovement, exHeld40, exReady, initState]
  have ht1 : (evaluateMovement exHeld40).lateralTarget = 40 := by
    rw [e, (transitionToIdle_preserves _).1]
    show lateralClamp (playerX exHeld40) = 40
    norm_num [playerX, exHeld40, lateralClamp, lateralRange]
  have hroot1 : (evaluateMovement exHeld40).playerRoot = some 40 := by
    rw [e, (transitionToIdle_preserves _).2]
    rfl
  have hclose : |(evaluateMovement exHeld40).lateralTarget - 40| < 1 / 100 := by
    rw [ht1]
    norm_num
  refine ⟨rfl, ht1, ?_, by norm_num⟩
  simp [updatePlayerLateralPosition, hroot1, hclose, ht1]

/-! ### The scroll-speed invariant -/

theorem scrollOK_of_eq {s s' : GameState} (h : ScrollOK s)
    (he : s'.activeScrollSpeed = s.activeScrollSpeed) : ScrollOK s' := by
  unfold ScrollOK at *
  rw [he]
  exact h

theorem scrollOK_table (st : PlayerState) :
    (animationRanges st).scroll = 0 ∨ (animationRanges st).scroll = baseScrollSpeed := by
  cases st <;> simp [animationRanges]

theorem scrollOK_playState {s : GameState} (h : ScrollOK s) (st : PlayerState) (c : Cont) :
    ScrollOK (playState s st c) := by
  by_cases h2 : s.currentPlayerState = st ∧ (animationRanges st).loop = true
  · by_cases h1 : (s.hasAnimGroup || s.hasSkeleton) = true
    · rw [playState_same_loop s st c h1 h2.1 h2.2]
      exact scrollOK_table st
    · have hga : s.hasAnimGroup = false := by
        cases hA : s.hasAnimGroup <;> simp_all
      have hsk : s.hasSkeleton = false := by
        cases hS : s.hasSkeleton <;> simp_all
      rw [playState_noSource s st c hga hsk]
      exact h
  · by_cases h3 : s.hasAnimGroup = true
    · rw [playState_start_group s st c h3 h2]
      exact scrollOK_table st
    · have hga : s.hasAnimGroup = false := by simpa using h3
      by_cases h4 : s.hasSkeleton = true
      · rw [playState_start_skel s st c hga h4 h2]
        exact scrollOK_table st
      · have hsk : s.hasSkeleton = false := by simpa using h4
        rw [playState_noSource s st c hga hsk]
        exact h

theorem scrollOK_transitionToIdle {s : GameState} (h : ScrollOK s) :
    ScrollOK (transitionToIdle s) := by
  unfold transitionToIdle
  split
  · exact h
  · split
    · exact scrollOK_playState h .Idle .nothing
    · split
      · exact h
      · exact scrollOK_playState h .Run_Idle .idleAfterRunIdle

theorem scrollOK_evaluateMovement {s : GameState} (h : ScrollOK s) :
    ScrollOK (evaluateMovement s) := by
  unfold evaluateMovement
  split
  · exact h
  · split
    · refine scrollOK_playState ?_ .Strafe_R .nothing
      exact scrollOK_of_eq h rfl
    · split
      · refine scrollOK_playState ?_ .Strafe_L .nothing
        exact scrollOK_of_eq h rfl
      · split
        · refine scrollOK_playState ?_ .Run .nothing
          exact scrollOK_of_eq h rfl
        · refine scrollOK_transitionToIdle ?_
          exact scrollOK_of_eq h rfl

theorem scrollOK_triggerSlide {s : GameState} (h : ScrollOK s) :
    ScrollOK (triggerSlide s) := by
  unfold triggerSlide
  split
  · exact h
  · refine scrollOK_playState ?_ .Slide .slideRecover
    exact scrollOK_of_eq h rfl

theorem scrollOK_triggerJump {s : GameState} (h : ScrollOK s) :
    ScrollOK (triggerJump s) := by
  unfold triggerJump
  split
  · exact h
  · refine scrollOK_playState ?_ .Jump .jumpChain
    exact scrollOK_of_eq h rfl

theorem scrollOK_runCont {s : GameState} (h : ScrollOK s) (c : Cont) :
    ScrollOK (runCont s c) := by
  cases c
  · exact h
  · refine scrollOK_evaluateMovement ?_
    exact scrollOK_of_eq h rfl
  · exact scrollOK_playState h .Fall .fallChain
  · exact scrollOK_playState h .Getup .getupChain
  · exact scrollOK_evaluateMovement h
  · exact scrollOK_playState h .Idle .nothing

theorem scrollOK_fireCompletion {s : GameState} (h : ScrollOK s) :
    ScrollOK (fireCompletion s) := by
  unfold fireCompletion
  split
  · exact h
  · refine scrollOK_runCont ?_ _
    exact scrollOK_of_eq h rfl

theorem scrollOK_update {s : GameState} (h : ScrollOK s) (dt : ℚ) :
    ScrollOK (updatePlayerLateralPosition s dt) := by
  unfold updatePlayerLateralPosition
  split
  · exact h
  · dsimp only
    split
    · exact scrollOK_of_eq h rfl
    · exact scrollOK_of_eq h rfl

theorem scrollOK_ensureIdle {s : GameState} (h : ScrollOK s) :
    ScrollOK (ensureIdle s) := by
  unfold ensureIdle
  split
  · exact h
  · split
    · refine scrollOK_playState ?_ .Idle .nothing
      exact scrollOK_of_eq h rfl
    · exact h

theorem scrollOK_keyDown {s : GameState} (h : ScrollOK s) (k : KeyCode) :
    ScrollOK (handleKeyDown s k) := by
  cases k
  · simp only [handleKeyDown]
    split
    · refine scrollOK_evaluateMovement ?_
      exact scrollOK_of_eq h rfl
    · exact h
  · simp only [handleKeyDown]
    split
    · refine scrollOK_evaluateMovement ?_
      exact scrollOK_of_eq h rfl
    · exact h
  · simp only [handleKeyDown]
    split
    · refine scrollOK_evaluateMovement ?_
      exact scrollOK_of_eq h rfl
    · exact h
  · simp only [handleKeyDown]
    split
    · refine scrollOK_triggerSlide ?_
      exact scrollOK_of_eq h rfl
    · exact h
  · simp only [handleKeyDown]
    exact scrollOK_triggerJump h

theorem scrollOK_keyUp {s : GameState} (h : ScrollOK s) (k : KeyCode) :
    ScrollOK (handleKeyUp s k) := by
  cases k
  · simp only [handleKeyUp]
    split
    · refine scrollOK_evaluateMovement ?_
      exact scrollOK_of_eq h rfl
    · exact h
  · simp only [handleKeyUp]
    split
    · refine scrollOK_evaluateMovement ?_
      exact scrollOK_of_eq h rfl
    · exact h
  · simp only [handleKeyUp]
    split
    · refine scrollOK_evaluateMovement ?_
      exact scrollOK_of_eq h rfl
    · exact h
  · simp only [handleKeyUp]
    exact scrollOK_of_eq h rfl
  · simp only [handleKeyUp]
    exact h

theorem scrollOK_applyEvent {s : GameState} (h : ScrollOK s) (e : Event) :
    ScrollOK (applyEvent s e) := by
  cases e
  · exact scrollOK_keyDown h _
  · exact scrollOK_keyUp h _
  · exact scrollOK_ensureIdle (scrollOK_update h _)
  · exact scrollOK_ensureIdle h
  · refine scrollOK_ensureIdle ?_
    exact scrollOK_of_eq h rfl
  · exact scrollOK_fireCompletion h

/-- C10: in every reachable program state, `activeScrollSpeed` is either 0
or exactly `baseScrollSpeed` (102); every table entry scroll field is one of
those two values; hence the scroll speed is never negative and segments only
advance toward the camera between recycles. -/
theorem scroll_speed_invariant (s : GameState) (h : Reach s) :
    (s.activeScrollSpeed = 0 ∨ s.activeScrollSpeed = baseScrollSpeed)
    ∧ (∀ st, (animationRanges st).scroll = 0
        ∨ (animationRanges st).scroll = baseScrollSpeed)
    ∧ 0 ≤ s.activeScrollSpeed := by
  have main : ScrollOK s := by
    induction h with
    | init => exact Or.inl rfl
    | step e _ ih => exact scrollOK_applyEvent ih e
  refine ⟨main, scrollOK_table, ?_⟩
  rcases main with h0 | h0 <;> rw [h0] <;> norm_num [baseScrollSpeed]

/-- Witness for C10 at the initial reachable state. -/
theorem scroll_speed_invariant_witness :
    initState.activeScrollSpeed = 0 ∨ initState.activeScrollSpeed = baseScrollSpeed :=
  (scroll_speed_invariant initState Reach.init).1

end InfinBboy
